import Mathlib

/-!
Verification development for the task-timer core: a shallow embedding of the
work/break phase scheduler (`timer.rs`), the weighted random task selector and
tick orchestrator (`lib.rs`), and the calendar sync state machine with its
iCal date parser (`calendar.rs`), together with theorems settling the frozen
claims about the natural-language specification.

Modelling conventions:
- Rust `Instant`/`DateTime` values are embedded as `ℚ` (timer) or `Int`
  (calendar seconds since the Unix epoch).  `Duration` is unsigned in Rust and
  both `Instant - Instant` (`duration_since`) and the `Duration` returned by it
  saturate at zero; this is modelled by `durSub`.
- Machine integers are embedded as `Nat`/`Int` with explicit wrap-around where
  the source can overflow: the `u8` cycle counter increments modulo 256, and
  the `priority as usize` cast in `lib.rs` is `% 2^64` on the `i16` value.
- The random number generator is externalized: `SliceRandom::choose` draws a
  uniform index below the slice length, modelled by an arbitrary `Nat` taken
  modulo the length (`sliceChoose`).
- The chumsky 0.9 combinators used by `parse_ical_date` are embedded by direct
  recursive descent: `one_of("1234567890").repeated().exactly(n)` consumes
  exactly `n` digit characters or fails, `or_not` rewinds the input on inner
  failure, and the top-level `parse` entry point does not require the whole
  input to be consumed (the repository never appends the `end()` combinator).
  The `.unwrap()` calls inside the `map` closures abort on out-of-range
  calendar components; this is modelled by the `PRes.panic` outcome.
-/

/-- Saturating subtraction of instants, modelling Rust `Instant` subtraction
(`duration_since`), which returns a zero `Duration` when the subtrahend is
later. -/
def durSub (a b : ℚ) : ℚ := max (a - b) 0

/-- Timer settings, from `TimerSettings` in `timer.rs`: three durations in
seconds (`f64`, embedded as `ℚ`) and the `u8` long-rest interval. -/
structure TimerSettings where
  work_time : ℚ
  short_rest_time : ℚ
  long_rest_time : ℚ
  long_rest_interval : Nat
  deriving DecidableEq, Repr

/-- The phase state machine, from `enum Timer` in `timer.rs`. -/
inductive Timer where
  | notRunning
  | working (sinceLastLongBreak : Nat) (startedAt : ℚ)
  | shortBreak (sinceLastLongBreak : Nat) (startedAt : ℚ)
  | longBreak (startedAt : ℚ)
  deriving DecidableEq, Repr

/-- Phase tags, from `TimerDiscriminants` (derived via `EnumDiscriminants`). -/
inductive TimerD where
  | notRunning
  | working
  | shortBreak
  | longBreak
  deriving DecidableEq, Repr

/-- Discriminant of a phase, modelling `TimerDiscriminants::from`. -/
def Timer.discr : Timer → TimerD
  | .notRunning => .notRunning
  | .working _ _ => .working
  | .shortBreak _ _ => .shortBreak
  | .longBreak _ => .longBreak

/-- `Timer::start` from `timer.rs`: force `Working(0, now)` from any state. -/
def Timer.start (_t : Timer) (now : ℚ) : Timer := .working 0 now

/-- `Timer::stop` from `timer.rs`: force `NotRunning` from any state. -/
def Timer.stop (_t : Timer) : Timer := .notRunning

/-- `Timer::tick` from `timer.rs`.  Returns the new phase and the `bool`
result (whether a transition fired).  The `u8` counter increment wraps
modulo 256. -/
def Timer.tick (t : Timer) (settings : TimerSettings) (now : ℚ) (skip : Bool) :
    Timer × Bool :=
  match t with
  | .working n startedAt =>
    if skip = true ∨ settings.work_time ≤ durSub now startedAt then
      let n' := (n + 1) % 256
      (if settings.long_rest_interval ≤ n' then Timer.longBreak now
       else Timer.shortBreak n' now, true)
    else (t, false)
  | .shortBreak n startedAt =>
    if skip = true ∨ settings.short_rest_time ≤ durSub now startedAt then
      (Timer.working n now, true)
    else (t, false)
  | .longBreak startedAt =>
    if skip = true ∨ settings.long_rest_time ≤ durSub now startedAt then
      (Timer.working 0 now, true)
    else (t, false)
  | .notRunning => (t, false)

/-- `Timer::remaining` from `timer.rs`: `(started + phase_duration) - now`,
where the outer subtraction is Rust `Instant` subtraction and therefore
saturates at zero; zero when not running. -/
def Timer.remaining (t : Timer) (now : ℚ) (settings : TimerSettings) : ℚ :=
  match t with
  | .notRunning => 0
  | .working _ startedAt => durSub (startedAt + settings.work_time) now
  | .shortBreak _ startedAt => durSub (startedAt + settings.short_rest_time) now
  | .longBreak startedAt => durSub (startedAt + settings.long_rest_time) now

/-- States reachable from `Timer::default()` (`NotRunning`) through `start`,
`stop` and `tick` with arbitrary instants and skip flags, at fixed settings. -/
inductive TReach (s : TimerSettings) : Timer → Prop where
  | init : TReach s .notRunning
  | start (t : Timer) (now : ℚ) : TReach s t → TReach s (t.start now)
  | stop (t : Timer) : TReach s t → TReach s t.stop
  | tick (t : Timer) (now : ℚ) (skip : Bool) :
      TReach s t → TReach s (t.tick s now skip).1

/-- The counter range invariant claimed for `Working`/`ShortBreak` states. -/
def counterInv (interval : Nat) : Timer → Prop
  | .working n _ => n < interval
  | .shortBreak n _ => n < interval
  | .longBreak _ => True
  | .notRunning => True

/-- Iterated forced ticking from `Working(0, t0)`, with an arbitrary stream of
instants: the driver of the phase-cycle regression fixture. -/
def forceRun (s : TimerSettings) (ns : Nat → ℚ) (t0 : ℚ) : Nat → Timer
  | 0 => .working 0 t0
  | k + 1 => ((forceRun s ns t0 k).tick s (ns k) true).1

/-- The claimed repeating sequence of phase tags, of period 6 when the
long-rest interval is 3. -/
def phasePattern : Nat → TimerD
  | 0 => .working
  | 1 => .shortBreak
  | 2 => .working
  | 3 => .shortBreak
  | 4 => .working
  | _ => .longBreak

/-- A to-do item, from `struct Event` in `calendar.rs`.  `DateTime<Local>`
fields are embedded as seconds since the Unix epoch (`Int`); comparisons on
`DateTime` compare the underlying instants. -/
structure Event where
  uid : String
  date_stamp : Int
  summary : String
  starts : Option Int
  due : Option Int
  priority : Int
  deriving DecidableEq, Repr

/-- The sync state, from `enum Calendar` in `calendar.rs`: `Working` holds the
optional background join handle (embedded as an abstract handle id), `Ready`
holds the fetched task list. -/
inductive Calendar where
  | working (task : Option Nat)
  | ready (events : List Event)
  deriving DecidableEq, Repr

/-- `Calendar::default()`: `Ready(vec![])`. -/
def Calendar.dflt : Calendar := .ready []

/-- `Calendar::reset` from `calendar.rs`: overwrite the state (whatever it
was) with `Working(Some(spawned handle))`; `h` stands for the handle of the
freshly spawned background fetch. -/
def Calendar.reset (h : Nat) (_prev : Calendar) : Calendar := .working (some h)

/-- `Calendar::tick` from `calendar.rs`: when the state is `Working(task)`
with `task.is_some()` and the handle finished, take the handle and move to
`Ready` with its result; in every other case leave the state unchanged.  The
environment is abstracted by `isFinished` and `result`, indexed by handle. -/
def Calendar.ctick (isFinished : Nat → Bool) (result : Nat → List Event) :
    Calendar → Calendar
  | .working (some h) =>
    if isFinished h then .ready (result h) else .working (some h)
  | c => c

/-- Sync states reachable from `Calendar::default()` by any interleaving of
`reset` (with arbitrary fresh handles) and `tick` (with arbitrary completion
environments). -/
inductive CReach : Calendar → Prop where
  | init : CReach Calendar.dflt
  | reset (c : Calendar) (h : Nat) : CReach c → CReach (c.reset h)
  | tick (c : Calendar) (isFinished : Nat → Bool) (result : Nat → List Event) :
      CReach c → CReach (Calendar.ctick isFinished result c)

/-- Eligibility filter of `Application::choose_event` in `lib.rs`: a task is a
candidate iff it has no start instant or its start instant is before `now`. -/
def eligible (e : Event) (now : Int) : Bool :=
  match e.starts with
  | some start => decide (start < now)
  | none => true

/-- Saturating multiplication by two on `i16`, modelling
`i16::saturating_mul(2)` in `choose_event`. -/
def satMulTwoI16 (x : Int) : Int := max (min (x * 2) 32767) (-32768)

/-- Number of copies a candidate contributes to the selection multiset, from
`choose_event` in `lib.rs`: the `i16` weight `12 - priority`, doubled
(saturating) and clamped to at least 1 when the task is overdue, then cast
`as usize` — a sign-extending wrap modulo `2^64`, with no clamp at zero for
negative non-overdue weights. -/
def weightCopies (e : Event) (now : Int) : Nat :=
  let p : Int := 12 - e.priority
  let p : Int :=
    match e.due with
    | some due => if due < now then max (satMulTwoI16 p) 1 else p
    | none => p
  (p % (2 : Int) ^ 64).toNat

/-- The selection multiset of `choose_event`: eligible tasks, each repeated
`weightCopies` times (the fused `filter`/`flat_map`/`repeat`/`take` pipeline
of `lib.rs` lines 68–86). -/
def candidate_events (events : List Event) (now : Int) : List Event :=
  (events.filter fun e => eligible e now).flatMap
    fun e => List.replicate (weightCopies e now) e

/-- The multiset over which `choose_event` draws, as a function of the task
list and of the two wall-clock inputs the source actually reads: the ambient
`Local::now()` reading taken inside `choose_event` and the accumulated
`paused_for` duration.  `choose_event` computes `now = Local::now() -
paused_for` itself; the instant passed to `Application::tick` is not used. -/
def selection_multiset (events : List Event) (ambientLocalNow pausedFor : Int) :
    List Event :=
  candidate_events events (ambientLocalNow - pausedFor)

/-- `SliceRandom::choose`: a uniform pick from a slice, `None` when empty.
The rng draw is externalized as an arbitrary index reduced modulo the
length. -/
def sliceChoose (l : List Event) (idx : Nat) : Option Event :=
  l.get? (idx % l.length)

/-- `Application::choose_event` from `lib.rs`: build the selection multiset
from the ambient clock reading and pick one element at random. -/
def choose_event (events : List Event) (ambientLocalNow pausedFor : Int)
    (rngIdx : Nat) : Option Event :=
  sliceChoose (selection_multiset events ambientLocalNow pausedFor) rngIdx

/-- Step (3) of `Application::tick` (`lib.rs` lines 52–60): the match over
`(timer.working(), &events, chosen_event.is_some())` whose only live arm is
`(_, Ready(events), false) if !events.is_empty() => choose_event()`.  Returns
the new shown-task slot and whether `choose_event` was invoked. -/
def Application.tickStep3 (working : Bool) (events : Calendar)
    (chosen : Option Event) (ambientLocalNow pausedFor : Int) (rngIdx : Nat) :
    Option Event × Bool :=
  match working, events, chosen.isSome with
  | _, .ready evs, false =>
    if evs.isEmpty then (chosen, false)
    else (choose_event evs ambientLocalNow pausedFor rngIdx, true)
  | _, _, _ => (chosen, false)

/-- Outcome of `parse_ical_date`: a parsed instant (seconds since the Unix
epoch) together with the `FixedOffset` tag of the resulting
`DateTime<Local>` value, a typed chumsky parse error, or a Rust panic
(the `.unwrap()` calls inside the `map` closures). -/
inductive PRes where
  | ok (instant : Int) (offsetTag : Int)
  | err
  | panic
  deriving DecidableEq, Repr

/-- Truth of the `ok` outcome. -/
def PRes.isOk : PRes → Bool
  | .ok _ _ => true
  | _ => false

/-- Fold a digit string into a number, modelling the
`fold(0, |acc, el| (acc * 10) + el)` of the `number` combinator. -/
def digits2nat (l : List Char) : Nat :=
  l.foldl (fun acc c => acc * 10 + (c.toNat - 48)) 0

/-- The `number(length)` combinator of `parse_ical_date`:
`one_of("1234567890").repeated().exactly(length)` followed by the decimal
fold.  It consumes exactly `length` leading ASCII digits (failing when the
input is shorter or a non-digit appears among them) and returns the value
with the unconsumed remainder. -/
def parseNumber (len : Nat) (s : List Char) : Option (Nat × List Char) :=
  if len ≤ s.length ∧ (s.take len).all Char.isDigit then
    some (digits2nat (s.take len), s.drop len)
  else none

/-- Proleptic-Gregorian leap-year test, modelling chrono. -/
def isLeap (y : Nat) : Bool := (y % 4 = 0 && y % 100 ≠ 0) || y % 400 = 0

/-- Last day of a month, modelling chrono's calendar. -/
def lastDay (y m : Nat) : Nat :=
  if m = 2 then (if isLeap y then 29 else 28)
  else if m = 4 ∨ m = 6 ∨ m = 9 ∨ m = 11 then 30
  else 31

/-- Validity of `NaiveDate::from_ymd_opt` for the arguments reachable from
four parsed digits (years 0–9999 are always within chrono's year range). -/
def validYmd (y m d : Nat) : Bool :=
  decide (1 ≤ m) && decide (m ≤ 12) && decide (1 ≤ d) && decide (d ≤ lastDay y m)

/-- Validity of `NaiveTime::from_hms_opt`. -/
def validHms (h mi s : Nat) : Bool :=
  decide (h ≤ 23) && decide (mi ≤ 59) && decide (s ≤ 59)

/-- Days from the Unix epoch to the given proleptic-Gregorian civil date,
modelling the instant stored by chrono's `NaiveDate`. -/
def daysFromCivil (y m d : Nat) : Int :=
  let yi : Int := if m ≤ 2 then (y : Int) - 1 else (y : Int)
  let era : Int := Int.fdiv yi 400
  let yoe : Int := yi - era * 400
  let mp : Int := if 2 < m then (m : Int) - 3 else (m : Int) + 9
  let doy : Int := Int.fdiv (153 * mp + 2) 5 + (d : Int) - 1
  let doe : Int := yoe * 365 + Int.fdiv yoe 4 - Int.fdiv yoe 100 + doy
  era * 146097 + doe - 719468

/-- `parse_ical_date` from `calendar.rs`, embedded over chumsky 0.9 semantics.
`localOffset` is the ambient system timezone offset (seconds) that chrono's
`Local` attaches when a `DateTime<Utc>` is converted `.into()` a
`DateTime<Local>`; the floating (no-`Z`) form instead attaches `Utc.fix()`,
the fixed zero offset.  In all three forms the parsed digits are interpreted
as a UTC wall-clock, so the instant is the same with and without `Z`.  A
correctly shaped digit group whose components are out of calendar range hits
`from_ymd_opt(..).unwrap()` / `from_hms_opt(..).unwrap()` inside a `map`
closure and panics.  A failed `T TIME` group is rewound by `or_not`, and
unconsumed trailing input is ignored by chumsky's `parse`. -/
def parse_ical_date (localOffset : Int) (input : List Char) : PRes :=
  match parseNumber 4 input with
  | none => .err
  | some (y, r1) =>
    match parseNumber 2 r1 with
    | none => .err
    | some (mo, r2) =>
      match parseNumber 2 r2 with
      | none => .err
      | some (d, r3) =>
        if validYmd y mo d then
          let dateSecs : Int := 86400 * daysFromCivil y mo d
          match r3 with
          | 'T' :: r4 =>
            (match parseNumber 2 r4 with
             | none => .ok dateSecs localOffset
             | some (h, r5) =>
               match parseNumber 2 r5 with
               | none => .ok dateSecs localOffset
               | some (mi, r6) =>
                 match parseNumber 2 r6 with
                 | none => .ok dateSecs localOffset
                 | some (se, r7) =>
                   if validHms h mi se then
                     let t : Int :=
                       dateSecs + 3600 * (h : Int) + 60 * (mi : Int) + (se : Int)
                     match r7 with
                     | 'Z' :: _ => .ok t localOffset
                     | _ => .ok t 0
                   else .panic)
          | _ => .ok dateSecs localOffset
        else .panic

/-- The grammar of claim C5, following the claim's words: exactly
`DATE`, `DATE "T" TIME` or `DATE "T" TIME "Z"` with `DATE` 8 ASCII digits and
`TIME` 6 ASCII digits, and nothing else. -/
def shapeSpec (s : List Char) : Bool :=
  (decide (s.length = 8) && s.all Char.isDigit) ||
  (decide (s.length = 15) && (s.take 8).all Char.isDigit &&
    decide (s.getD 8 ' ' = 'T') && (s.drop 9).all Char.isDigit) ||
  (decide (s.length = 16) && (s.take 8).all Char.isDigit &&
    decide (s.getD 8 ' ' = 'T') && ((s.drop 9).take 6).all Char.isDigit &&
    decide (s.getD 15 ' ' = 'Z'))

/-- The set of inputs on which the parse actually returns `ok`, following the
amended claim's words: a prefix of 8 digits forming a valid calendar date,
and — only when the next characters are `'T'` followed by 6 digits — those
six digits must form a valid time of day; everything after the matched prefix
is ignored. -/
def okShape (s : List Char) : Bool :=
  decide (8 ≤ s.length) && (s.take 8).all Char.isDigit &&
  validYmd (digits2nat (s.take 4)) (digits2nat ((s.drop 4).take 2))
    (digits2nat ((s.drop 6).take 2)) &&
  (match s.drop 8 with
   | 'T' :: r =>
     (!(decide (6 ≤ r.length) && (r.take 6).all Char.isDigit)) ||
       validHms (digits2nat (r.take 2)) (digits2nat ((r.drop 2).take 2))
         (digits2nat ((r.drop 4).take 2))
   | _ => true)

/-- Fixture task: no start, no due date, the default priority 11. -/
def ev1 : Event :=
  { uid := "a", date_stamp := 0, summary := "a", starts := none, due := none,
    priority := 11 }

/-- Fixture task: no start, no due date, priority 13 (a legal `i8` value above
the weight pivot 12). -/
def ev2 : Event :=
  { uid := "b", date_stamp := 0, summary := "b", starts := none, due := none,
    priority := 13 }

/-- Fixture task: starts at instant 5, no due date, priority 11. -/
def ev3 : Event :=
  { uid := "c", date_stamp := 0, summary := "c", starts := some 5, due := none,
    priority := 11 }

/-- Unfolding step of `forceRun`. -/
theorem forceRun_succ (s : TimerSettings) (ns : Nat → ℚ) (t0 : ℚ) (k : Nat) :
    forceRun s ns t0 (k + 1) = ((forceRun s ns t0 k).tick s (ns k) true).1 :=
  rfl

/-- A forced tick of a `working` phase increments the counter modulo 256 and
moves to a long break when it reaches the interval, else to a short break. -/
theorem tick_force_working (s : TimerSettings) (n : Nat) (st now : ℚ) :
    Timer.tick (.working n st) s now true =
      (if s.long_rest_interval ≤ (n + 1) % 256 then Timer.longBreak now
       else Timer.shortBreak ((n + 1) % 256) now, true) := by
  simp [Timer.tick]

/-- A forced tick of a `shortBreak` phase resumes work, counter preserved. -/
theorem tick_force_short (s : TimerSettings) (n : Nat) (st now : ℚ) :
    Timer.tick (.shortBreak n st) s now true = (Timer.working n now, true) := by
  simp [Timer.tick]

/-- A forced tick of a `longBreak` phase resumes work with counter 0. -/
theorem tick_force_long (s : TimerSettings) (st now : ℚ) :
    Timer.tick (.longBreak st) s now true = (Timer.working 0 now, true) := by
  simp [Timer.tick]

/-- One full cycle of six forced ticks starting at any `working 0` state, when
the long-rest interval is 3. -/
theorem forceRun_cycle (s : TimerSettings) (h3 : s.long_rest_interval = 3)
    (ns : Nat → ℚ) (t0 : ℚ) (k : Nat) (t : ℚ)
    (hk : forceRun s ns t0 k = .working 0 t) :
    forceRun s ns t0 (k + 1) = .shortBreak 1 (ns k) ∧
    forceRun s ns t0 (k + 2) = .working 1 (ns (k + 1)) ∧
    forceRun s ns t0 (k + 3) = .shortBreak 2 (ns (k + 2)) ∧
    forceRun s ns t0 (k + 4) = .working 2 (ns (k + 3)) ∧
    forceRun s ns t0 (k + 5) = .longBreak (ns (k + 4)) ∧
    forceRun s ns t0 (k + 6) = .working 0 (ns (k + 5)) := by
  have h1 : forceRun s ns t0 (k + 1) = .shortBreak 1 (ns k) := by
    rw [forceRun_succ, hk, tick_force_working, h3]
    norm_num
  have h2 : forceRun s ns t0 (k + 2) = .working 1 (ns (k + 1)) := by
    have e : k + 2 = (k + 1) + 1 := by omega
    rw [e, forceRun_succ, h1, tick_force_short]
  have h3' : forceRun s ns t0 (k + 3) = .shortBreak 2 (ns (k + 2)) := by
    have e : k + 3 = (k + 2) + 1 := by omega
    rw [e, forceRun_succ, h2, tick_force_working, h3]
    norm_num
  have h4 : forceRun s ns t0 (k + 4) = .working 2 (ns (k + 3)) := by
    have e : k + 4 = (k + 3) + 1 := by omega
    rw [e, forceRun_succ, h3', tick_force_short]
  have h5 : forceRun s ns t0 (k + 5) = .longBreak (ns (k + 4)) := by
    have e : k + 5 = (k + 4) + 1 := by omega
    rw [e, forceRun_succ, h4, tick_force_working, h3]
    norm_num
  have h6 : forceRun s ns t0 (k + 6) = .working 0 (ns (k + 5)) := by
    have e : k + 6 = (k + 5) + 1 := by omega
    rw [e, forceRun_succ, h5, tick_force_long]
  exact ⟨h1, h2, h3', h4, h5, h6⟩

/-- Every multiple of six forced ticks lands back on a `working 0` state. -/
theorem forceRun_working6 (s : TimerSettings) (h3 : s.long_rest_interval = 3)
    (ns : Nat → ℚ) (t0 : ℚ) (q : Nat) :
    ∃ t, forceRun s ns t0 (6 * q) = .working 0 t := by
  induction q with
  | zero => exact ⟨t0, by norm_num [forceRun]⟩
  | succ q ih =>
    obtain ⟨t, ht⟩ := ih
    obtain ⟨-, -, -, -, -, h6⟩ := forceRun_cycle s h3 ns t0 (6 * q) t ht
    exact ⟨ns (6 * q + 5), by rw [show 6 * (q + 1) = 6 * q + 6 by ring]; exact h6⟩

/-- C7: starting from `Working(0, t0)` with `long_rest_interval = 3`,
repeatedly applying `Timer::tick` with `force = true` (any stream of
instants) produces exactly the repeating phase sequence Working, ShortBreak,
Working, ShortBreak, Working, LongBreak, with period six. -/
theorem c7_cycle (s : TimerSettings) (h3 : s.long_rest_interval = 3)
    (ns : Nat → ℚ) (t0 : ℚ) (k : Nat) :
    (forceRun s ns t0 k).discr = phasePattern (k % 6) := by
  obtain ⟨q, r, hr, rfl⟩ : ∃ q r, r < 6 ∧ k = 6 * q + r :=
    ⟨k / 6, k % 6, Nat.mod_lt _ (by norm_num), (Nat.div_add_mod k 6).symm⟩
  obtain ⟨t, ht⟩ := forceRun_working6 s h3 ns t0 q
  obtain ⟨h1, h2, h3', h4, h5, -⟩ := forceRun_cycle s h3 ns t0 (6 * q) t ht
  have hmod : (6 * q + r) % 6 = r := by omega
  rw [hmod]
  interval_cases r
  · rw [show 6 * q + 0 = 6 * q by ring, ht]; rfl
  · rw [h1]; rfl
  · rw [h2]; rfl
  · rw [h3']; rfl
  · rw [h4]; rfl
  · rw [h5]; rfl

/-- Witness for C7: the eighth element (index 7) of the forced run is a short
break, as the pattern says. -/
theorem c7_cycle_witness :
    (⟨1500, 600, 1800, 3⟩ : TimerSettings).long_rest_interval = 3 ∧
    (forceRun ⟨1500, 600, 1800, 3⟩ (fun _ => (0 : ℚ)) 0 7).discr =
      phasePattern (7 % 6) :=
  ⟨rfl, c7_cycle ⟨1500, 600, 1800, 3⟩ rfl (fun _ => (0 : ℚ)) 0 7⟩

/-- C8 counterexample: with `long_rest_interval = 0` the state `Working(0, _)`
is reachable (a single `start` from the default state), yet its counter 0
does not lie in the empty interval `[0, 0)`, so the claimed invariant fails
as stated for that settings value. -/
theorem c8_cex :
    TReach ⟨1500, 600, 1800, 0⟩ (.working 0 0) ∧
    ¬ counterInv (⟨1500, 600, 1800, 0⟩ : TimerSettings).long_rest_interval
        (.working 0 0) :=
  ⟨TReach.start .notRunning 0 TReach.init, by simp [counterInv]⟩

/-- C8 (amended): provided `long_rest_interval ≥ 1`, in every state reachable
via `start`, `stop` and `tick` (any instants and force flags, fixed settings)
the counter carried by a `Working` or `ShortBreak` phase lies in
`[0, long_rest_interval)`; `LongBreak` carries no counter and the `Working`
state built after it carries 0. -/
theorem c8_inv (s : TimerSettings) (hI : 1 ≤ s.long_rest_interval)
    {t : Timer} (ht : TReach s t) : counterInv s.long_rest_interval t := by
  induction ht with
  | init => trivial
  | start t now _ _ => simpa [Timer.start, counterInv] using hI
  | stop t _ _ => trivial
  | tick t now skip _ ih =>
    cases t with
    | notRunning => simpa [Timer.tick] using ih
    | working n st =>
      by_cases hc : skip = true ∨ s.work_time ≤ durSub now st
      · simp only [Timer.tick, if_pos hc]
        split
        · trivial
        · next h => simp only [counterInv]; omega
      · simpa [Timer.tick, if_neg hc] using ih
    | shortBreak n st =>
      by_cases hc : skip = true ∨ s.short_rest_time ≤ durSub now st
      · simp only [Timer.tick, if_pos hc]
        simpa [counterInv] using ih
      · simpa [Timer.tick, if_neg hc] using ih
    | longBreak st =>
      by_cases hc : skip = true ∨ s.long_rest_time ≤ durSub now st
      · simp only [Timer.tick, if_pos hc]
        simpa [counterInv] using hI
      · simpa [Timer.tick, if_neg hc] using ih

/-- Witness for C8: with the default interval 4 the started state satisfies
the invariant. -/
theorem c8_inv_witness :
    counterInv (⟨1500, 600, 1800, 4⟩ : TimerSettings).long_rest_interval
      (.working 0 0) :=
  c8_inv ⟨1500, 600, 1800, 4⟩ (by norm_num)
    (TReach.start .notRunning 0 TReach.init)

/-- C9 counterexample: once `now` has passed the phase deadline the code
returns the zero-clamped `Duration`, not the negative signed value
`started_at + phase_duration − now` the claim describes: at
`Working(0, 0)`, `work_time = 10`, `now = 20` the code yields 0 while the
claimed formula yields −10. -/
theorem c9_cex :
    Timer.remaining (.working 0 0) 20 ⟨10, 600, 1800, 4⟩ = 0 ∧
    (0 : ℚ) + (10 : ℚ) - 20 < 0 := by
  constructor
  · simp [Timer.remaining, durSub]
    norm_num
  · norm_num

/-- C9 (amended): for nonnegative phase durations, `remaining(now, settings)`
returns the zero-clamped unsigned duration
`max (started_at + phase_duration − now) 0` for the current phase (work time
for Working, short rest for ShortBreak, long rest for LongBreak) and zero
when idle; it is clamped at zero, not negative, once `now` passes the
deadline. -/
theorem c9_remaining (s : TimerSettings) (now : ℚ)
    (_h1 : 0 ≤ s.work_time) (_h2 : 0 ≤ s.short_rest_time)
    (_h3 : 0 ≤ s.long_rest_time) :
    Timer.remaining .notRunning now s = 0 ∧
    (∀ n st, Timer.remaining (.working n st) now s =
      max (st + s.work_time - now) 0) ∧
    (∀ n st, Timer.remaining (.shortBreak n st) now s =
      max (st + s.short_rest_time - now) 0) ∧
    (∀ st, Timer.remaining (.longBreak st) now s =
      max (st + s.long_rest_time - now) 0) := by
  refine ⟨rfl, ?_, ?_, ?_⟩ <;> intros <;> simp [Timer.remaining, durSub]

/-- Witness for C9 at concrete nonnegative settings. -/
theorem c9_remaining_witness :
    Timer.remaining .notRunning 0 ⟨1500, 600, 1800, 4⟩ = 0 ∧
    (∀ n st, Timer.remaining (.working n st) 0 ⟨1500, 600, 1800, 4⟩ =
      max (st + (⟨1500, 600, 1800, 4⟩ : TimerSettings).work_time - 0) 0) ∧
    (∀ n st, Timer.remaining (.shortBreak n st) 0 ⟨1500, 600, 1800, 4⟩ =
      max (st + (⟨1500, 600, 1800, 4⟩ : TimerSettings).short_rest_time - 0) 0) ∧
    (∀ st, Timer.remaining (.longBreak st) 0 ⟨1500, 600, 1800, 4⟩ =
      max (st + (⟨1500, 600, 1800, 4⟩ : TimerSettings).long_rest_time - 0) 0) :=
  c9_remaining ⟨1500, 600, 1800, 4⟩ 0 (by norm_num) (by norm_num) (by norm_num)

/-- C10: in every sync state reachable from `Ready([])` by `reset` and
`poll`/`tick`, the `Working` variant holds a present (`Some`) join handle:
`Working(None)` is never observable, so the guarded take-and-unwrap in
`Calendar::tick` never fails. -/
theorem c10_no_working_none {c : Calendar} (hc : CReach c) :
    c ≠ .working none := by
  induction hc with
  | init => simp [Calendar.dflt]
  | reset c h _ _ => simp [Calendar.reset]
  | tick c isFinished result _ ih =>
    cases c with
    | ready evs => simp [Calendar.ctick]
    | working task =>
      cases task with
      | none => exact absurd rfl ih
      | some h =>
        simp only [Calendar.ctick]
        split <;> simp

/-- Witness for C10 at the initial state. -/
theorem c10_witness : Calendar.ready [] ≠ Calendar.working none :=
  c10_no_working_none CReach.init

/-- C1 counterexample: on a tick where the phase is not `Working` (here the
flag computed from `timer.working()` is `false`), the sync state is `Ready`
with a non-empty list and no task is shown, step (3) of `Application::tick`
still invokes `choose_event` and stores its result — the live match arm is
`(_, Ready(events), false)` and ignores the phase, contradicting the claim
that the slot is left unchanged whenever the phase condition fails. -/
theorem c1_cex :
    (Application.tickStep3 false (.ready [ev1]) none 0 0 0).2 = true ∧
    (Application.tickStep3 false (.ready [ev1]) none 0 0 0).1 = some ev1 := by
  decide

/-- C1 (amended): step (3) invokes `choose_event` (and stores its result as
the shown task) exactly when the sync state is `Ready` with a non-empty task
list and no task is currently shown, regardless of the scheduler phase; in
every other combination the shown-task slot is left unchanged. -/
theorem c1_amended (working : Bool) (cal : Calendar) (chosen : Option Event)
    (amb pf : Int) (idx : Nat) :
    ((Application.tickStep3 working cal chosen amb pf idx).2 = true ↔
      ∃ evs, cal = .ready evs ∧ evs ≠ [] ∧ chosen = none) ∧
    ((Application.tickStep3 working cal chosen amb pf idx).2 = false →
      (Application.tickStep3 working cal chosen amb pf idx).1 = chosen) := by
  cases cal with
  | working task => cases chosen <;> simp [Application.tickStep3]
  | ready evs =>
    cases chosen with
    | none =>
      by_cases he : evs = []
      · simp [Application.tickStep3, he]
      · simp [Application.tickStep3, List.isEmpty_iff, he]
    | some e => simp [Application.tickStep3]

/-- C2: a non-overdue task with priority 13 (a legal calendar priority value
above the pivot 12) contributes `(12 − 13) as usize = 2^64 − 1` copies to the
selection multiset instead of the `max(12 − priority, 0) = 0` copies the
claim specifies: the negative `i16` weight is sign-extended by the `as usize`
cast and there is no clamp at zero in the code. -/
theorem c2_weight_blowup :
    weightCopies ev2 0 = 2 ^ 64 - 1 ∧ weightCopies ev2 0 ≠ 0 := by
  decide

/-- C3 counterexample: two invocations of `choose_event` over the same task
list and the same accumulated pause duration build different selection
multisets when the ambient `Local::now()` reading taken inside the selector
differs — with the instant passed to `Application::tick` not appearing in
the computation at all — so the selector is not a deterministic function of
the task list and the externally supplied pause-adjusted instant. -/
theorem c3_cex : selection_multiset [ev3] 10 0 ≠ selection_multiset [ev3] 0 0 := by
  decide

/-- C3 (amended): apart from the single random pick, the Task Selector is a
deterministic function of the task list and of the pause-reduced ambient
clock reading `Local::now() − paused_for` it computes internally: any two
invocations agreeing on the task list and on that difference build identical
candidate multisets. -/
theorem c3_amended (events : List Event) (amb pf amb' pf' : Int)
    (h : amb - pf = amb' - pf') :
    selection_multiset events amb pf = selection_multiset events amb' pf' := by
  unfold selection_multiset
  rw [h]

/-- Witness for C3 (amended) at a concrete shifted pair of readings. -/
theorem c3_amended_witness :
    selection_multiset [ev3] 11 1 = selection_multiset [ev3] 12 2 :=
  c3_amended [ev3] 11 1 12 2 (by norm_num)

/-- C4: on the input `"20241301"` — correct digit grouping, month 13 out of
range — the parse does not return a typed error: it reaches
`NaiveDate::from_ymd_opt(2024, 13, 1).unwrap()` inside the `map` closure of
the `date` combinator and panics, contradicting the claim that such inputs
yield a typed parse failure treated as "field absent". -/
theorem c4_panic : parse_ical_date 0 ("20241301".toList) = .panic := by
  decide

/-- C6: the three parse forms produce exactly the claimed instants for any
ambient local offset `off`: `"20240115"` is midnight 2024-01-15 interpreted
as UTC (epoch second 1705276800) tagged with the local offset;
`"20240115T133000Z"` is 13:30:00 UTC (epoch second 1705325400) tagged local;
and the floating `"20240115T133000"` is the same wall-clock digits bound to
the fixed zero UTC offset — the same instant, tagged with offset 0 instead of
the system's actual local offset. -/
theorem c6_parse_values (off : Int) :
    parse_ical_date off ("20240115".toList) = .ok 1705276800 off ∧
    parse_ical_date off ("20240115T133000Z".toList) = .ok 1705325400 off ∧
    parse_ical_date off ("20240115T133000".toList) = .ok 1705325400 0 :=
  ⟨rfl, rfl, rfl⟩

/-- Splitting an all-digits check on a take into two adjacent groups. -/
theorem digits_take_split (s : List Char) (m n : Nat) :
    ((s.take (m + n)).all Char.isDigit = true) ↔
      ((s.take m).all Char.isDigit = true ∧
        ((s.drop m).take n).all Char.isDigit = true) := by
  rw [List.take_add, List.all_append, Bool.and_eq_true]

/-- An 8-digit prefix is exactly the 4+2+2 chain of digit groups consumed by
the `date` combinator. -/
theorem digitsChain8 (s : List Char) :
    (8 ≤ s.length ∧ (s.take 8).all Char.isDigit = true) ↔
      ((4 ≤ s.length ∧ (s.take 4).all Char.isDigit = true) ∧
       (2 ≤ (s.drop 4).length ∧ ((s.drop 4).take 2).all Char.isDigit = true) ∧
       (2 ≤ (s.drop 6).length ∧ ((s.drop 6).take 2).all Char.isDigit = true)) := by
  have hsplit1 := digits_take_split s 4 4
  have hsplit2 := digits_take_split (s.drop 4) 2 2
  norm_num at hsplit1 hsplit2
  simp only [List.all_eq_true, List.length_drop]
  constructor
  · rintro ⟨hl, ha⟩
    obtain ⟨a1, a4⟩ := hsplit1.mp ha
    obtain ⟨a2, a3⟩ := hsplit2.mp a4
    exact ⟨⟨by omega, a1⟩, ⟨by omega, a2⟩, ⟨by omega, a3⟩⟩
  · rintro ⟨⟨l1, a1⟩, ⟨l2, a2⟩, ⟨l3, a3⟩⟩
    exact ⟨by omega, hsplit1.mpr ⟨a1, hsplit2.mpr ⟨a2, a3⟩⟩⟩

/-- A 6-digit prefix is exactly the 2+2+2 chain of digit groups consumed by
the `time` combinator. -/
theorem digitsChain6 (r : List Char) :
    (6 ≤ r.length ∧ (r.take 6).all Char.isDigit = true) ↔
      ((2 ≤ r.length ∧ (r.take 2).all Char.isDigit = true) ∧
       (2 ≤ (r.drop 2).length ∧ ((r.drop 2).take 2).all Char.isDigit = true) ∧
       (2 ≤ (r.drop 4).length ∧ ((r.drop 4).take 2).all Char.isDigit = true)) := by
  have hsplit1 := digits_take_split r 2 4
  have hsplit2 := digits_take_split (r.drop 2) 2 2
  norm_num at hsplit1 hsplit2
  simp only [List.all_eq_true, List.length_drop]
  constructor
  · rintro ⟨hl, ha⟩
    obtain ⟨a1, a4⟩ := hsplit1.mp ha
    obtain ⟨a2, a3⟩ := hsplit2.mp a4
    exact ⟨⟨by omega, a1⟩, ⟨by omega, a2⟩, ⟨by omega, a3⟩⟩
  · rintro ⟨⟨l1, a1⟩, ⟨l2, a2⟩, ⟨l3, a3⟩⟩
    exact ⟨by omega, hsplit1.mpr ⟨a1, hsplit2.mpr ⟨a2, a3⟩⟩⟩

/-- C5 counterexample: the claim's exact-shape grammar is wrong on both
sides.  `"20240115X"` has a trailing non-grammar character, yet the parse
succeeds (chumsky's `parse` leaves trailing input unconsumed and the source
never adds the `end()` combinator); `"20241301"` is exactly 8 ASCII digits —
in the claimed grammar — yet the parse does not succeed (month 13 panics in
`from_ymd_opt(..).unwrap()`). -/
theorem c5_cex :
    (parse_ical_date 3600 ("20240115X".toList)).isOk = true ∧
    shapeSpec ("20240115X".toList) = false ∧
    shapeSpec ("20241301".toList) = true ∧
    (parse_ical_date 3600 ("20241301".toList)).isOk = false := by
  decide

/-- C5 (amended): the parse returns a value exactly on the inputs described
by `okShape`: a prefix of 8 digits forming a valid calendar date, where in
the case that the following characters are `'T'` immediately followed by six
digits those six digits must form a valid time of day; trailing characters
after the matched prefix (including a `'T'` group that fails to parse as a
time) are ignored rather than rejected, and in-shape digit groups with
out-of-range calendar components make the parse abort rather than fail. -/
theorem c5_ok_iff (off : Int) (s : List Char) :
    (parse_ical_date off s).isOk = okShape s := by
  by_cases h4 : 4 ≤ s.length ∧ (s.take 4).all Char.isDigit = true
  case neg =>
    have e4 : parseNumber 4 s = none := by
      rw [parseNumber, if_neg h4]
    have h8 : ¬(8 ≤ s.length ∧ (s.take 8).all Char.isDigit = true) :=
      fun hp => h4 ((digitsChain8 s).mp hp).1
    by_cases hl8 : 8 ≤ s.length
    · have ha8 : (s.take 8).all Char.isDigit = false := by
        cases hx : (s.take 8).all Char.isDigit
        · rfl
        · exact absurd ⟨hl8, hx⟩ h8
      simp [parse_ical_date, e4, okShape, ha8, PRes.isOk]
    · simp [parse_ical_date, e4, okShape, hl8, PRes.isOk]
  case pos =>
  have e4 : parseNumber 4 s = some (digits2nat (s.take 4), s.drop 4) := by
    rw [parseNumber, if_pos h4]
  by_cases h42 : 2 ≤ (s.drop 4).length ∧ ((s.drop 4).take 2).all Char.isDigit = true
  case neg =>
    have e42 : parseNumber 2 (s.drop 4) = none := by
      rw [parseNumber, if_neg h42]
    have h8 : ¬(8 ≤ s.length ∧ (s.take 8).all Char.isDigit = true) :=
      fun hp => h42 ((digitsChain8 s).mp hp).2.1
    by_cases hl8 : 8 ≤ s.length
    · have ha8 : (s.take 8).all Char.isDigit = false := by
        cases hx : (s.take 8).all Char.isDigit
        · rfl
        · exact absurd ⟨hl8, hx⟩ h8
      simp [parse_ical_date, e4, e42, okShape, ha8, PRes.isOk]
    · simp [parse_ical_date, e4, e42, okShape, hl8, PRes.isOk]
  case pos =>
  have hd6 : (s.drop 4).drop 2 = s.drop 6 := by rw [List.drop_drop]
  have e42 : parseNumber 2 (s.drop 4) =
      some (digits2nat ((s.drop 4).take 2), s.drop 6) := by
    rw [parseNumber, if_pos h42, hd6]
  by_cases h62 : 2 ≤ (s.drop 6).length ∧ ((s.drop 6).take 2).all Char.isDigit = true
  case neg =>
    have e62 : parseNumber 2 (s.drop 6) = none := by
      rw [parseNumber, if_neg h62]
    have h8 : ¬(8 ≤ s.length ∧ (s.take 8).all Char.isDigit = true) :=
      fun hp => h62 ((digitsChain8 s).mp hp).2.2
    by_cases hl8 : 8 ≤ s.length
    · have ha8 : (s.take 8).all Char.isDigit = false := by
        cases hx : (s.take 8).all Char.isDigit
        · rfl
        · exact absurd ⟨hl8, hx⟩ h8
      simp [parse_ical_date, e4, e42, e62, okShape, ha8, PRes.isOk]
    · simp [parse_ical_date, e4, e42, e62, okShape, hl8, PRes.isOk]
  case pos =>
  have hd8 : (s.drop 6).drop 2 = s.drop 8 := by rw [List.drop_drop]
  have e62 : parseNumber 2 (s.drop 6) =
      some (digits2nat ((s.drop 6).take 2), s.drop 8) := by
    rw [parseNumber, if_pos h62, hd8]
  obtain ⟨hl8, ha8⟩ := (digitsChain8 s).mpr ⟨h4, h42, h62⟩
  by_cases hv : validYmd (digits2nat (s.take 4)) (digits2nat ((s.drop 4).take 2))
      (digits2nat ((s.drop 6).take 2)) = true
  case neg =>
    have hv' : validYmd (digits2nat (s.take 4)) (digits2nat ((s.drop 4).take 2))
        (digits2nat ((s.drop 6).take 2)) = false := by
      cases hx : validYmd (digits2nat (s.take 4)) (digits2nat ((s.drop 4).take 2))
          (digits2nat ((s.drop 6).take 2))
      · rfl
      · exact absurd hx hv
    simp [parse_ical_date, e4, e42, e62, okShape, hv', hl8, ha8, PRes.isOk]
  case pos =>
  cases hrest : s.drop 8 with
  | nil =>
    simp [parse_ical_date, e4, e42, e62, okShape, hv, hl8, ha8, hrest, PRes.isOk]
  | cons c r =>
    by_cases hT : c = 'T'
    · subst hT
      by_cases hB2a : 2 ≤ r.length ∧ (r.take 2).all Char.isDigit = true
      case neg =>
        have f2a : parseNumber 2 r = none := by rw [parseNumber, if_neg hB2a]
        have h6 : ¬(6 ≤ r.length ∧ (r.take 6).all Char.isDigit = true) :=
          fun hp => hB2a ((digitsChain6 r).mp hp).1
        by_cases hl6 : 6 ≤ r.length
        · have ha6 : (r.take 6).all Char.isDigit = false := by
            cases hx : (r.take 6).all Char.isDigit
            · rfl
            · exact absurd ⟨hl6, hx⟩ h6
          simp [parse_ical_date, e4, e42, e62, okShape, hv, hl8, ha8, hrest, f2a,
            ha6, PRes.isOk]
        · simp [parse_ical_date, e4, e42, e62, okShape, hv, hl8, ha8, hrest, f2a,
            hl6, PRes.isOk]
      case pos =>
      have f2a : parseNumber 2 r = some (digits2nat (r.take 2), r.drop 2) := by
        rw [parseNumber, if_pos hB2a]
      by_cases hB2b : 2 ≤ (r.drop 2).length ∧ ((r.drop 2).take 2).all Char.isDigit = true
      case neg =>
        have f2b : parseNumber 2 (r.drop 2) = none := by
          rw [parseNumber, if_neg hB2b]
        have h6 : ¬(6 ≤ r.length ∧ (r.take 6).all Char.isDigit = true) :=
          fun hp => hB2b ((digitsChain6 r).mp hp).2.1
        by_cases hl6 : 6 ≤ r.length
        · have ha6 : (r.take 6).all Char.isDigit = false := by
            cases hx : (r.take 6).all Char.isDigit
            · rfl
            · exact absurd ⟨hl6, hx⟩ h6
          simp [parse_ical_date, e4, e42, e62, okShape, hv, hl8, ha8, hrest, f2a,
            f2b, ha6, PRes.isOk]
        · simp [parse_ical_date, e4, e42, e62, okShape, hv, hl8, ha8, hrest, f2a,
            f2b, hl6, PRes.isOk]
      case pos =>
      have hd4 : (r.drop 2).drop 2 = r.drop 4 := by rw [List.drop_drop]
      have f2b : parseNumber 2 (r.drop 2) =
          some (digits2nat ((r.drop 2).take 2), r.drop 4) := by
        rw [parseNumber, if_pos hB2b, hd4]
      by_cases hB2c : 2 ≤ (r.drop 4).length ∧ ((r.drop 4).take 2).all Char.isDigit = true
      case neg =>
        have f2c : parseNumber 2 (r.drop 4) = none := by
          rw [parseNumber, if_neg hB2c]
        have h6 : ¬(6 ≤ r.length ∧ (r.take 6).all Char.isDigit = true) :=
          fun hp => hB2c ((digitsChain6 r).mp hp).2.2
        by_cases hl6 : 6 ≤ r.length
        · have ha6 : (r.take 6).all Char.isDigit = false := by
            cases hx : (r.take 6).all Char.isDigit
            · rfl
            · exact absurd ⟨hl6, hx⟩ h6
          simp [parse_ical_date, e4, e42, e62, okShape, hv, hl8, ha8, hrest, f2a,
            f2b, f2c, ha6, PRes.isOk]
        · simp [parse_ical_date, e4, e42, e62, okShape, hv, hl8, ha8, hrest, f2a,
            f2b, f2c, hl6, PRes.isOk]
      case pos =>
      have f2c : parseNumber 2 (r.drop 4) =
          some (digits2nat ((r.drop 4).take 2), (r.drop 4).drop 2) := by
        rw [parseNumber, if_pos hB2c]
      obtain ⟨hl6, ha6⟩ := (digitsChain6 r).mpr ⟨hB2a, hB2b, hB2c⟩
      by_cases hh : validHms (digits2nat (r.take 2)) (digits2nat ((r.drop 2).take 2))
          (digits2nat ((r.drop 4).take 2)) = true
      · simp only [parse_ical_date, e4, e42, e62, okShape, hv, hl8, ha8, hrest, f2a,
          f2b, f2c, hh, hl6, ha6, if_true, decide_True]
        split <;> simp [PRes.isOk, hh]
      · have hh' : validHms (digits2nat (r.take 2)) (digits2nat ((r.drop 2).take 2))
            (digits2nat ((r.drop 4).take 2)) = false := by
          cases hx : validHms (digits2nat (r.take 2)) (digits2nat ((r.drop 2).take 2))
              (digits2nat ((r.drop 4).take 2))
          · rfl
          · exact absurd hx hh
        simp [parse_ical_date, e4, e42, e62, okShape, hv, hl8, ha8, hrest, f2a,
          f2b, f2c, hh', hl6, ha6, PRes.isOk]
    · have hok : okShape s = true := by
        simp only [okShape, hrest, hl8, ha8, hv, decide_True, Bool.true_and,
          Bool.and_true]
        split
        · next heq =>
          rw [List.cons.injEq] at heq
          exact absurd heq.1 hT
        · rfl
      rw [hok]
      simp only [parse_ical_date, e4, e42, e62, hrest, hv, if_true]
      split
      · next heq =>
        rw [List.cons.injEq] at heq
        exact absurd heq.1 hT
      · rfl
